import Mathlib

/-!
Verification of the Acta backend analytics pipeline.

We shallowly embed the analytics core of the repository:
* the proleptic-Gregorian calendar arithmetic the code gets from the Python
  `datetime` module (`toordinal`, `weekday`, `isocalendar`, `timedelta`);
* the `Task`, `DailyStats` and `WeeklyStats` records (`tasks/models.py`,
  `analytics/models.py`), with dates as ordinal day numbers and `Decimal`
  fields as rationals;
* the batch aggregator (`analytics/management/commands/calculate_analytics.py`),
  the retention pruner (`analytics/management/commands/cleanup_analytics.py`)
  and the incremental signal handlers (`tasks/signals.py`), with the database
  tables modelled as association lists keyed exactly as the ORM tables are.
-/

namespace Acta

/-! ## Calendar arithmetic (Python `datetime.date`) -/

/-- Proleptic Gregorian leap-year test. -/
def isLeap (y : Nat) : Bool := y % 4 == 0 && (y % 100 != 0 || y % 400 == 0)

/-- Length of month `m` (1-12) in year `y`. -/
def daysInMonth (y m : Nat) : Nat :=
  if m = 2 then (if isLeap y then 29 else 28)
  else if m = 4 ∨ m = 6 ∨ m = 9 ∨ m = 11 then 30
  else 31

/-- A calendar date, `year ≥ 1`, `1 ≤ month ≤ 12`, `1 ≤ day`. -/
structure Date where
  year : Nat
  month : Nat
  day : Nat
  deriving DecidableEq, Repr

/-- Days in the months of year `y` strictly before month `m`. -/
def monthOffset (y m : Nat) : Nat :=
  (List.range (m - 1)).foldl (fun acc i => acc + daysInMonth y (i + 1)) 0

/-- Day of year, 1-based. -/
def dayOfYear (d : Date) : Nat := monthOffset d.year d.month + d.day

/-- Python `date.toordinal`: day number with 0001-01-01 ↦ 1. -/
def toOrdinal (d : Date) : Int :=
  365 * ((d.year : Int) - 1) + ((d.year : Int) - 1) / 4 - ((d.year : Int) - 1) / 100
    + ((d.year : Int) - 1) / 400 + dayOfYear d

/-- Python `date.weekday`: Monday = 0, ..., Sunday = 6. -/
def weekday (d : Date) : Int := (toOrdinal d + 6) % 7

/-- The ordinal of the Monday starting ISO week 1 of `year`
(Python `datetime._isoweek1monday`). -/
def isoweek1monday (year : Nat) : Int :=
  let firstday := toOrdinal ⟨year, 1, 1⟩
  let firstweekday := (firstday + 6) % 7
  let week1monday := firstday - firstweekday
  if firstweekday > 3 then week1monday + 7 else week1monday

/-- Python `date.isocalendar`: the triple (ISO year, ISO week number, ISO weekday). -/
def isocalendar (d : Date) : Nat × Nat × Nat :=
  let today := toOrdinal d
  let diff := today - isoweek1monday d.year
  if diff < 0 then
    let diff2 := (today - isoweek1monday (d.year - 1)).toNat
    (d.year - 1, diff2 / 7 + 1, diff2 % 7 + 1)
  else
    let week := diff.toNat / 7
    if week ≥ 52 ∧ today ≥ isoweek1monday (d.year + 1) then
      (d.year + 1, 1, diff.toNat % 7 + 1)
    else
      (d.year, week + 1, diff.toNat % 7 + 1)

/-- Python `timedelta(weeks = w)` expressed in days. -/
def weeksTimedeltaDays (w : Nat) : Int := 7 * (w : Int)

/-! ## Association-list stores

Database tables are modelled as association lists from a key to a row.
`setA` is the upsert a `get_or_create` followed by field assignment and
`save()` amounts to: replace in place when the key exists, append otherwise. -/

def lookupA {K V : Type} [DecidableEq K] : List (K × V) → K → Option V
  | [], _ => none
  | (k, v) :: rest, k' => if k = k' then some v else lookupA rest k'

def setA {K V : Type} [DecidableEq K] : List (K × V) → K → V → List (K × V)
  | [], k, v => [(k, v)]
  | (k0, v0) :: rest, k, v =>
      if k0 = k then (k, v) :: rest else (k0, v0) :: setA rest k v

/-! ## Data model (`tasks/models.py`, `analytics/models.py`)

Dates and datetimes are ordinal day numbers (`Int`); for the analytics code
only the `.date()` of a datetime ever matters.  `Decimal` fields are `Rat`.
`Category.id` (a UUID keyed through `str(category.id)` in the JSON blobs)
is a `Nat`; `str` is injective on ids so this renaming is faithful. -/

inductive Status where
  | pending
  | in_progress
  | completed
  | cancelled
  deriving DecidableEq, Repr

structure Category where
  id : Nat
  name : String
  color : String
  deriving DecidableEq, Repr

structure Task where
  user : Nat
  status : Status
  created_at : Int
  completed_at : Option Int
  due_date : Option Int
  actual_hours : Option Rat
  category : Option Category
  deriving DecidableEq, Repr

/-- One entry of the `categories_data` JSON mapping. -/
structure CatData where
  name : String
  color : String
  tasks_created : Nat
  tasks_completed : Nat
  deriving DecidableEq, Repr

/-- A `DailyStats` row (the non-key, non-audit fields). -/
structure DailyRow where
  tasks_created : Nat
  tasks_completed : Nat
  tasks_overdue : Nat
  hours_worked : Rat
  productivity_score : Rat
  categories_data : List (Nat × CatData)
  deriving DecidableEq, Repr

/-- The zeroed row used in the `get_or_create` defaults of both writers. -/
def zeroDailyRow : DailyRow :=
  { tasks_created := 0, tasks_completed := 0, tasks_overdue := 0,
    hours_worked := 0, productivity_score := 0, categories_data := [] }

/-- One entry of the weekly `daily_breakdown` JSON list. -/
structure BreakdownEntry where
  date : Int
  tasks_created : Nat
  tasks_completed : Nat
  productivity_score : Rat
  deriving DecidableEq, Repr

/-- A `WeeklyStats` row (the non-key, non-audit fields). -/
structure WeeklyRow where
  start_date : Int
  end_date : Int
  total_tasks_created : Nat
  total_tasks_completed : Nat
  total_tasks_overdue : Nat
  total_hours_worked : Rat
  average_productivity_score : Rat
  weekly_categories_data : List (Nat × CatData)
  daily_breakdown : List BreakdownEntry
  deriving DecidableEq, Repr

/-- `analytics_daily_stats`, keyed by (`user_id`, `date`). -/
abbrev DailyStore := List ((Nat × Int) × DailyRow)

/-- `analytics_weekly_stats`, keyed by (`user_id`, `year`, `week_number`). -/
abbrev WeeklyStore := List ((Nat × Nat × Nat) × WeeklyRow)

/-! ## Batch aggregator: daily recomputation
(`calculate_analytics.py`, `Command.calculate_daily_stats`) -/

/-- Seeding pass over tasks created on the calc date
(`calculate_analytics.py` lines 123-134). -/
def catSeed (acc : List (Nat × CatData)) (t : Task) : List (Nat × CatData) :=
  match t.category with
  | none => acc
  | some c =>
      match lookupA acc c.id with
      | some cd => setA acc c.id { cd with tasks_created := cd.tasks_created + 1 }
      | none => setA acc c.id
          { name := c.name, color := c.color, tasks_created := 1, tasks_completed := 0 }

/-- Completion pass over tasks completed on the calc date; a category is
counted only if the seeding pass already created its entry
(`calculate_analytics.py` lines 136-144). -/
def catComplete (acc : List (Nat × CatData)) (t : Task) : List (Nat × CatData) :=
  match t.category with
  | none => acc
  | some c =>
      match lookupA acc c.id with
      | some cd => setA acc c.id { cd with tasks_completed := cd.tasks_completed + 1 }
      | none => acc

/-- `Task.objects.filter(user=user)`. -/
def userTasks (tasks : List Task) (u : Nat) : List Task :=
  tasks.filter (fun t => t.user = u)

/-- Tasks created on `d`: `tasks.filter(created_at__date=calc_date)`. -/
def createdOn (ts : List Task) (d : Int) : List Task :=
  ts.filter (fun t => t.created_at = d)

/-- Tasks completed on `d`:
`tasks.filter(status=COMPLETED, completed_at__date=calc_date)`. -/
def completedOn (ts : List Task) (d : Int) : List Task :=
  ts.filter (fun t => t.status = Status.completed ∧ t.completed_at = some d)

/-- The full per-user, per-date recomputation of a `DailyStats` row
(`calculate_analytics.py` lines 92-147).  Every non-key field of the row is
reassigned, so the result does not depend on the previous row. -/
def computeDailyRow (tasks : List Task) (u : Nat) (d : Int) : DailyRow :=
  let ts := userTasks tasks u
  let tasks_created := (createdOn ts d).length
  let tasks_completed := (completedOn ts d).length
  let tasks_overdue :=
    (ts.filter (fun t =>
      (match t.due_date with | some dd => decide (dd < d) | none => false) &&
      (t.status == Status.pending || t.status == Status.in_progress))).length
  let completed_tasks :=
    ts.filter (fun t =>
      t.status = Status.completed ∧ t.completed_at = some d ∧ t.actual_hours ≠ none)
  let hours_worked :=
    completed_tasks.foldl
      (fun acc t => match t.actual_hours with | some h => acc + h | none => acc) 0
  let productivity_score : Rat :=
    if tasks_created > 0 then
      min (((tasks_completed : Rat) / (tasks_created : Rat)) * 100) 100
    else 0
  let categories_data :=
    (completedOn ts d).foldl catComplete ((createdOn ts d).foldl catSeed [])
  { tasks_created := tasks_created, tasks_completed := tasks_completed,
    tasks_overdue := tasks_overdue, hours_worked := hours_worked,
    productivity_score := productivity_score, categories_data := categories_data }

/-- `Command.calculate_daily_stats`: upsert the recomputed row for each user. -/
def calculate_daily_stats (tasks : List Task) (users : List Nat) (calc_date : Int)
    (s : DailyStore) : DailyStore :=
  users.foldl (fun s u => setA s (u, calc_date) (computeDailyRow tasks u calc_date)) s

/-! ## Batch aggregator: weekly rollup
(`calculate_analytics.py`, `Command.calculate_weekly_stats`) -/

/-- Insertion step for sorting the weekly range of daily rows by date
descending, the stand-in for the `DailyStats` queryset ordering (date
descending per the model Meta). -/
def insertByDateDesc (p : Int × DailyRow) :
    List (Int × DailyRow) → List (Int × DailyRow)
  | [] => [p]
  | q :: rest => if p.1 ≥ q.1 then p :: q :: rest else q :: insertByDateDesc p rest

def sortByDateDesc (l : List (Int × DailyRow)) : List (Int × DailyRow) :=
  l.foldr insertByDateDesc []

/-- `DailyStats.objects.filter(user=user, date__range=[week_start, week_end])`,
iterated in the model ordering (date descending). -/
def userWeekRows (ds : DailyStore) (u : Nat) (lo hi : Int) : List (Int × DailyRow) :=
  sortByDateDesc
    ((ds.filter (fun kv => kv.1.1 = u ∧ lo ≤ kv.1.2 ∧ kv.1.2 ≤ hi)).map
      (fun kv => (kv.1.2, kv.2)))

/-- The `start_date`/`end_date` pair of the weekly row: `get_or_create` only
fills them as defaults, so an existing row keeps its stored boundaries. -/
def weeklyBase (prev : Option WeeklyRow) (week_start week_end : Int) : Int × Int :=
  match prev with
  | some r => (r.start_date, r.end_date)
  | none => (week_start, week_end)

/-- Merging one daily `categories_data` entry into the weekly aggregate
(`calculate_analytics.py` lines 202-213). -/
def catMerge (acc : List (Nat × CatData)) (kv : Nat × CatData) : List (Nat × CatData) :=
  match lookupA acc kv.1 with
  | some w => setA acc kv.1
      { w with tasks_created := w.tasks_created + kv.2.tasks_created,
               tasks_completed := w.tasks_completed + kv.2.tasks_completed }
  | none => setA acc kv.1
      { name := kv.2.name, color := kv.2.color,
        tasks_created := kv.2.tasks_created, tasks_completed := kv.2.tasks_completed }

/-- Recomputation of one user `WeeklyStats` row from the daily store
(`calculate_analytics.py` lines 180-237).  Only `start_date`/`end_date` are
taken from the previous row (creation defaults); all other fields are
reassigned before `save()`. -/
def weeklyRowFor (prev : Option WeeklyRow) (ds : DailyStore) (u : Nat)
    (week_start week_end : Int) : WeeklyRow :=
  let rows := userWeekRows ds u week_start week_end
  let scores := (rows.map (fun p => p.2.productivity_score)).filter (fun q => 0 < q)
  { start_date := (weeklyBase prev week_start week_end).1
    end_date := (weeklyBase prev week_start week_end).2
    total_tasks_created := (rows.map (fun p => p.2.tasks_created)).sum
    total_tasks_completed := (rows.map (fun p => p.2.tasks_completed)).sum
    total_tasks_overdue := (rows.map (fun p => p.2.tasks_overdue)).sum
    total_hours_worked := (rows.map (fun p => p.2.hours_worked)).sum
    average_productivity_score :=
      if scores ≠ [] then scores.sum / (scores.length : Rat) else 0
    weekly_categories_data :=
      rows.foldl (fun acc p => p.2.categories_data.foldl catMerge acc) []
    daily_breakdown :=
      (List.range 7).map (fun i =>
        let check_date := week_start + (i : Int)
        match (rows.filter (fun p => p.1 = check_date)).head? with
        | some p =>
            { date := check_date, tasks_created := p.2.tasks_created,
              tasks_completed := p.2.tasks_completed,
              productivity_score := p.2.productivity_score }
        | none =>
            { date := check_date, tasks_created := 0, tasks_completed := 0,
              productivity_score := 0 }) }

/-- `Command.calculate_weekly_stats` (lines 154-243).  Note the key: the
`year` component is `end_date.year`, the calendar year, while the week
number is `end_date.isocalendar()[1]`, the ISO week number. -/
def calculate_weekly_stats (users : List Nat) (end_date : Date) (ds : DailyStore)
    (ws : WeeklyStore) : WeeklyStore :=
  let ed := toOrdinal end_date
  let week_start := ed - weekday end_date
  let week_end := week_start + 6
  let year := end_date.year
  let week_number := (isocalendar end_date).2.1
  users.foldl (fun ws u =>
    setA ws (u, year, week_number)
      (weeklyRowFor (lookupA ws (u, year, week_number)) ds u week_start week_end)) ws

/-- The two stats tables. -/
structure BatchState where
  daily : DailyStore
  weekly : WeeklyStore
  deriving DecidableEq, Repr

/-- The daily loop of `Command.handle` (lines 63-66):
`for i in range(days): calculate_daily_stats(users, target_date - i)`. -/
def batch_daily_phase (tasks : List Task) (users : List Nat) (td : Int) (days : Nat)
    (s : DailyStore) : DailyStore :=
  (List.range days).foldl
    (fun s i => calculate_daily_stats tasks users (td - (i : Int)) s) s

/-- `Command.handle` of `calculate_analytics` (lines 42-74): recompute daily
rows for `calc_date = target_date - i`, `i = 0..days-1`, then optionally the
weekly row for the week containing `target_date`. -/
def handle (tasks : List Task) (users : List Nat) (target_date : Date) (days : Nat)
    (calcWeekly : Bool) (st : BatchState) : BatchState :=
  let daily1 := batch_daily_phase tasks users (toOrdinal target_date) days st.daily
  if calcWeekly then
    { daily := daily1, weekly := calculate_weekly_stats users target_date daily1 st.weekly }
  else
    { daily := daily1, weekly := st.weekly }

/-! ## Incremental updater (`tasks/signals.py`) -/

/-- The recount query of `update_analytics_on_task_change` (lines 54-58):
count of the tasks of this user with status completed and completed date = today. -/
def countCompletedToday (tasks : List Task) (u : Nat) (today : Int) : Nat :=
  (tasks.filter (fun t =>
    t.user = u ∧ t.status = Status.completed ∧ t.completed_at = some today)).length

/-- The row-level effect of `update_analytics_on_task_change` (lines 26-66) on
the `(user, today)` row: bump `tasks_created` on creation, recount
`tasks_completed` only when the saved task is completed with completion date
today, then refresh `productivity_score` when `tasks_created > 0`. -/
def signalDailyRow (tasks : List Task) (inst : Task) (created : Bool) (today : Int)
    (prev : Option DailyRow) : DailyRow :=
  let r0 := prev.getD zeroDailyRow
  let r1 := if created then { r0 with tasks_created := r0.tasks_created + 1 } else r0
  let r2 :=
    if inst.status = Status.completed ∧ inst.completed_at ≠ none then
      if inst.completed_at = some today then
        { r1 with tasks_completed := countCompletedToday tasks inst.user today }
      else r1
    else r1
  let completion_rate := ((r2.tasks_completed : Rat) / (r2.tasks_created : Rat)) * 100
  if r2.tasks_created > 0 then
    { r2 with productivity_score := min completion_rate 100 }
  else r2

def update_analytics_on_task_change (tasks : List Task) (inst : Task) (created : Bool)
    (today : Int) (s : DailyStore) : DailyStore :=
  setA s (inst.user, today)
    (signalDailyRow tasks inst created today (lookupA s (inst.user, today)))

/-- The per-category recount of `update_category_analytics` (lines 95-100). -/
def countCategoryCompletedToday (tasks : List Task) (u cid : Nat) (today : Int) : Nat :=
  (tasks.filter (fun t =>
    t.user == u &&
    (match t.category with | some c => c.id == cid | none => false) &&
    t.status == Status.completed && t.completed_at == some today)).length

/-- The `categories_data` rewrite of `update_category_analytics` (lines 79-101). -/
def categoryUpdate (tasks : List Task) (inst : Task) (c : Category) (created : Bool)
    (today : Int) (cd0 : List (Nat × CatData)) : List (Nat × CatData) :=
  let cd1 :=
    match lookupA cd0 c.id with
    | some _ => cd0
    | none => setA cd0 c.id
        { name := c.name, color := c.color, tasks_created := 0, tasks_completed := 0 }
  let cd2 :=
    if created then
      match lookupA cd1 c.id with
      | some e => setA cd1 c.id { e with tasks_created := e.tasks_created + 1 }
      | none => cd1
    else cd1
  match lookupA cd2 c.id with
  | some e => setA cd2 c.id
      { e with tasks_completed := countCategoryCompletedToday tasks inst.user c.id today }
  | none => cd2

/-- `update_category_analytics` (lines 69-107).  The `try` block catches only
`DailyStats.DoesNotExist` (a missing `(user, today)` row), modelled by the
`none` branch of the lookup. -/
def update_category_analytics (tasks : List Task) (inst : Task) (created : Bool)
    (today : Int) (s : DailyStore) : DailyStore :=
  match inst.category with
  | none => s
  | some c =>
      match lookupA s (inst.user, today) with
      | none => s
      | some row =>
          setA s (inst.user, today)
            { row with categories_data :=
                categoryUpdate tasks inst c created today row.categories_data }

/-- The two post-save receivers, in registration order. -/
def incremental_update (tasks : List Task) (inst : Task) (created : Bool) (today : Int)
    (s : DailyStore) : DailyStore :=
  update_category_analytics tasks inst created today
    (update_analytics_on_task_change tasks inst created today s)

/-! ## Retention pruner (`cleanup_analytics.py`, `Command.handle`) -/

/-- The observable outcome of one `cleanup_analytics` invocation. -/
structure CleanupOutput where
  warned : Bool
  dry_run_report : Option (Nat × Nat)
  deleted : Nat × Nat
  daily : DailyStore
  weekly : WeeklyStore
  deriving DecidableEq, Repr

/-- The weekly cutoff as computed on line 57:
`timezone.now().date() - timedelta(weeks=weeks_to_keep * 7)`. -/
def weekly_cutoff_date (today : Int) (weeks_to_keep : Nat) : Int :=
  today - weeksTimedeltaDays (weeks_to_keep * 7)

/-- `Command.handle` of `cleanup_analytics` (lines 40-108). -/
def cleanup_handle (today : Int) (days_to_keep weeks_to_keep : Nat)
    (dry_run confirm : Bool) (ds : DailyStore) (ws : WeeklyStore) : CleanupOutput :=
  if ¬dry_run ∧ ¬confirm then
    { warned := true, dry_run_report := none, deleted := (0, 0), daily := ds, weekly := ws }
  else
    let daily_cutoff := today - (days_to_keep : Int)
    let weekly_cutoff := weekly_cutoff_date today weeks_to_keep
    let daily_count := (ds.filter (fun kv => kv.1.2 < daily_cutoff)).length
    let weekly_count := (ws.filter (fun kv => kv.2.start_date < weekly_cutoff)).length
    if dry_run then
      { warned := false, dry_run_report := some (daily_count, weekly_count),
        deleted := (0, 0), daily := ds, weekly := ws }
    else
      { warned := false, dry_run_report := none,
        deleted := (daily_count, weekly_count),
        daily := ds.filter (fun kv => ¬(kv.1.2 < daily_cutoff)),
        weekly := ws.filter (fun kv => ¬(kv.2.start_date < weekly_cutoff)) }

/-! ## Exception behaviour

The Python runtime can raise inside any ORM call; what the embedding has to
capture is which handlers catch.  The fallible variants below thread an
`Except`: `failSave` injects a database exception at the `DailyStats.save()`
call of a signal handler, `failFor u` injects an exception while recomputing
the row of user `u` inside the batch loop.  The surrounding source has no
`try`/`except` at these points (`tasks/signals.py` lines 26-66,
`calculate_analytics.py` lines 42-152), so an injected error propagates. -/

/-- `update_analytics_on_task_change` with a fallible `daily_stats.save()`. -/
def update_analytics_exc (failSave : Bool) (tasks : List Task) (inst : Task)
    (created : Bool) (today : Int) (s : DailyStore) : Except String DailyStore :=
  let row := signalDailyRow tasks inst created today (lookupA s (inst.user, today))
  if failSave then Except.error "DailyStats.save raised"
  else Except.ok (setA s (inst.user, today) row)

/-- `update_category_analytics` with a fallible `daily_stats.save()`.  Its
`try` block catches only `DailyStats.DoesNotExist` (the `none` lookup), so a
save failure still propagates. -/
def update_category_exc (failSave : Bool) (tasks : List Task) (inst : Task)
    (created : Bool) (today : Int) (s : DailyStore) : Except String DailyStore :=
  match inst.category with
  | none => Except.ok s
  | some c =>
      match lookupA s (inst.user, today) with
      | none => Except.ok s
      | some row =>
          if failSave then Except.error "DailyStats.save raised"
          else Except.ok (setA s (inst.user, today)
            { row with categories_data :=
                categoryUpdate tasks inst c created today row.categories_data })

/-- The per-date user loop of `Command.calculate_daily_stats` when the
recomputation for one user can raise.  There is no `try`/`except` in `handle` or
`calculate_daily_stats`, so the first failure aborts the loop; the error
carries the store as written so far (saves for earlier users are kept). -/
def calculate_daily_stats_exc (failFor : Nat → Bool) (tasks : List Task)
    (users : List Nat) (calc_date : Int) (s : DailyStore) :
    Except (String × DailyStore) DailyStore :=
  match users with
  | [] => Except.ok s
  | u :: rest =>
      if failFor u then Except.error ("recount raised", s)
      else calculate_daily_stats_exc failFor tasks rest calc_date
        (setA s (u, calc_date) (computeDailyRow tasks u calc_date))

/-! ## Generic upsert machinery

Both batch phases are folds of "upsert key `k` with a value computed from the
current row at `k`"; the idempotence and recomputation proofs go through this
shared view. -/

/-- One upsert: replace the row at `k` with `G k` of the current row. -/
def stepG {K V : Type} [DecidableEq K] (G : K → Option V → V)
    (s : List (K × V)) (k : K) : List (K × V) :=
  setA s k (G k (lookupA s k))

/-- A sequence of upserts. -/
def runG {K V : Type} [DecidableEq K] (G : K → Option V → V)
    (ks : List K) (s : List (K × V)) : List (K × V) :=
  ks.foldl (stepG G) s

/-- Applying `G` to its own output changes nothing. -/
def GFix {K V : Type} (G : K → Option V → V) : Prop :=
  ∀ k p, G k (some (G k p)) = G k p

/-- The row stored at `k` is already the one `G` would write. -/
def StableAt {K V : Type} [DecidableEq K] (G : K → Option V → V)
    (s : List (K × V)) (k : K) : Prop :=
  lookupA s k = some (G k (lookupA s k))

/-- The daily-phase update: the recomputed row ignores the previous one,
since `calculate_daily_stats` reassigns every non-key field. -/
def Gd (tasks : List Task) (k : Nat × Int) (_ : Option DailyRow) : DailyRow :=
  computeDailyRow tasks k.1 k.2

/-- The weekly-phase update. -/
def Gw (ds : DailyStore) (week_start week_end : Int) (k : Nat × Nat × Nat)
    (prev : Option WeeklyRow) : WeeklyRow :=
  weeklyRowFor prev ds k.1 week_start week_end

/-- The (user, date) keys written by the daily phase, in write order. -/
def dailyKeys (users : List Nat) (td : Int) (days : Nat) : List (Nat × Int) :=
  (List.range days).flatMap (fun i => users.map (fun u => (u, td - (i : Int))))

/-- The per-row invariant claimed for `productivity_score`. -/
def DailyInv (r : DailyRow) : Prop :=
  0 ≤ r.productivity_score ∧ r.productivity_score ≤ 100 ∧
    (r.tasks_created = 0 → r.productivity_score = 0)

/-! ## Concrete sample data for witnesses and counterexamples -/

/-- A pending task of user 0 created on day 5. -/
def sampleTask : Task :=
  { user := 0, status := Status.pending, created_at := 5, completed_at := none,
    due_date := none, actual_hours := none, category := none }

/-- A task of user 0 that was completed earlier today (day 10) and has just
been reopened: status moved back to pending, `completed_at` cleared by the
`pre_save` handler. -/
def reopenedTask : Task :=
  { user := 0, status := Status.pending, created_at := 3, completed_at := none,
    due_date := none, actual_hours := none, category := none }

/-- The `(user 0, day 10)` row as it stood while `reopenedTask` was still
completed: one task created, one completed. -/
def staleRow : DailyRow :=
  { tasks_created := 1, tasks_completed := 1, tasks_overdue := 0,
    hours_worked := 0, productivity_score := 100, categories_data := [] }

/-- A task of user 0 completed today (day 10). -/
def completedTask : Task :=
  { user := 0, status := Status.completed, created_at := 3, completed_at := some 10,
    due_date := none, actual_hours := none, category := none }

/-- A daily row with nonzero `tasks_overdue` and `hours_worked`. -/
def overdueRow : DailyRow :=
  { tasks_created := 0, tasks_completed := 0, tasks_overdue := 3,
    hours_worked := 2, productivity_score := 0, categories_data := [] }

/-- A weekly row whose week started 365 days before day 739251. -/
def oldWeeklyRow : WeeklyRow :=
  { start_date := 739251 - 365, end_date := 739251 - 359, total_tasks_created := 0,
    total_tasks_completed := 0, total_tasks_overdue := 0, total_hours_worked := 0,
    average_productivity_score := 0, weekly_categories_data := [],
    daily_breakdown := [] }

/-! ## Store lemmas -/

theorem lookupA_setA_self {K V : Type} [DecidableEq K] (s : List (K × V)) (k : K) (v : V) :
    lookupA (setA s k v) k = some v := by
  induction s with
  | nil => simp [setA, lookupA]
  | cons hd tl ih =>
      obtain ⟨k0, v0⟩ := hd
      by_cases h : k0 = k
      · simp [setA, h, lookupA]
      · simp [setA, h, lookupA, ih]

theorem lookupA_setA_ne {K V : Type} [DecidableEq K] (s : List (K × V)) (k k' : K) (v : V)
    (h : k ≠ k') : lookupA (setA s k v) k' = lookupA s k' := by
  induction s with
  | nil => simp [setA, lookupA, h]
  | cons hd tl ih =>
      obtain ⟨k0, v0⟩ := hd
      by_cases h0 : k0 = k
      · subst h0
        simp [setA, lookupA, h]
      · simp [setA, h0, lookupA, ih]

theorem setA_same {K V : Type} [DecidableEq K] (s : List (K × V)) (k : K) (v : V)
    (h : lookupA s k = some v) : setA s k v = s := by
  induction s with
  | nil => simp [lookupA] at h
  | cons hd tl ih =>
      obtain ⟨k0, v0⟩ := hd
      by_cases h0 : k0 = k
      · subst h0
        simp [lookupA] at h
        simp [setA, h]
      · simp [lookupA, h0] at h
        simp [setA, h0, ih h]

/-! ## Stabilisation lemmas for upsert folds -/

theorem stepG_of_stableAt {K V : Type} [DecidableEq K] {G : K → Option V → V}
    {s : List (K × V)} {k : K} (h : StableAt G s k) : stepG G s k = s :=
  setA_same s k (G k (lookupA s k)) h

theorem stableAt_stepG_self {K V : Type} [DecidableEq K] {G : K → Option V → V}
    (hG : GFix G) (s : List (K × V)) (k : K) : StableAt G (stepG G s k) k := by
  unfold StableAt stepG
  rw [lookupA_setA_self]
  exact congrArg some (hG k (lookupA s k)).symm

theorem stableAt_stepG_preserve {K V : Type} [DecidableEq K] {G : K → Option V → V}
    (hG : GFix G) {s : List (K × V)} {k' : K} (k : K) (h : StableAt G s k') :
    StableAt G (stepG G s k) k' := by
  by_cases hk : k = k'
  · subst hk
    exact stableAt_stepG_self hG s k
  · unfold StableAt stepG
    rw [lookupA_setA_ne _ _ _ _ hk]
    exact h

theorem stableAt_runG_preserve {K V : Type} [DecidableEq K] {G : K → Option V → V}
    (hG : GFix G) {s : List (K × V)} {k' : K} (ks : List K) (h : StableAt G s k') :
    StableAt G (runG G ks s) k' := by
  induction ks generalizing s with
  | nil => exact h
  | cons a ks ih => exact ih (stableAt_stepG_preserve hG a h)

theorem runG_stableAt {K V : Type} [DecidableEq K] {G : K → Option V → V}
    (hG : GFix G) {ks : List K} {k : K} (hk : k ∈ ks) (s : List (K × V)) :
    StableAt G (runG G ks s) k := by
  induction ks generalizing s with
  | nil => cases hk
  | cons a ks ih =>
      rcases List.mem_cons.mp hk with h | h
      · subst h
        exact stableAt_runG_preserve hG ks (stableAt_stepG_self hG s k)
      · exact ih h (stepG G s a)

theorem runG_of_all_stable {K V : Type} [DecidableEq K] {G : K → Option V → V}
    {ks : List K} {s : List (K × V)} (h : ∀ k ∈ ks, StableAt G s k) :
    runG G ks s = s := by
  induction ks with
  | nil => rfl
  | cons a ks ih =>
      have ha : stepG G s a = s := stepG_of_stableAt (h a (List.mem_cons_self a ks))
      show runG G ks (stepG G s a) = s
      rw [ha]
      exact ih (fun k hk => h k (List.mem_cons_of_mem a hk))

theorem runG_idem {K V : Type} [DecidableEq K] {G : K → Option V → V}
    (hG : GFix G) (ks : List K) (s : List (K × V)) :
    runG G ks (runG G ks s) = runG G ks s :=
  runG_of_all_stable (fun _ hk => runG_stableAt hG hk s)

theorem runG_append {K V : Type} [DecidableEq K] (G : K → Option V → V)
    (a b : List K) (s : List (K × V)) :
    runG G (a ++ b) s = runG G b (runG G a s) := by
  simp [runG, List.foldl_append]

/-! ## The batch phases as upsert folds -/

theorem gfix_Gd (tasks : List Task) : GFix (Gd tasks) := fun _ _ => rfl

/-- Recomputing a weekly row from its own output changes nothing: only
`start_date`/`end_date` are read from the previous row, and the recomputation
passes them through. -/
theorem weeklyRowFor_fix (p : Option WeeklyRow) (ds : DailyStore) (u : Nat)
    (a b : Int) :
    weeklyRowFor (some (weeklyRowFor p ds u a b)) ds u a b
      = weeklyRowFor p ds u a b := rfl

theorem gfix_Gw (ds : DailyStore) (a b : Int) : GFix (Gw ds a b) :=
  fun k p => weeklyRowFor_fix p ds k.1 a b

theorem calculate_daily_stats_eq_runG (tasks : List Task) (users : List Nat)
    (d : Int) (s : DailyStore) :
    calculate_daily_stats tasks users d s
      = runG (Gd tasks) (users.map (fun u => (u, d))) s := by
  induction users generalizing s with
  | nil => rfl
  | cons u us ih => exact ih (setA s (u, d) (computeDailyRow tasks u d))

theorem daily_fold_eq_runG (tasks : List Task) (users : List Nat) (td : Int)
    (l : List Nat) (s : DailyStore) :
    l.foldl (fun s i => calculate_daily_stats tasks users (td - (i : Int)) s) s
      = runG (Gd tasks) (l.flatMap (fun i => users.map (fun u => (u, td - (i : Int))))) s := by
  induction l generalizing s with
  | nil => rfl
  | cons i l ih =>
      calc (i :: l).foldl (fun s i => calculate_daily_stats tasks users (td - (i : Int)) s) s
          = l.foldl (fun s i => calculate_daily_stats tasks users (td - (i : Int)) s)
              (calculate_daily_stats tasks users (td - (i : Int)) s) := rfl
        _ = runG (Gd tasks) (l.flatMap (fun i => users.map (fun u => (u, td - (i : Int)))))
              (runG (Gd tasks) (users.map (fun u => (u, td - (i : Int)))) s) := by
              rw [ih, calculate_daily_stats_eq_runG]
        _ = runG (Gd tasks)
              ((i :: l).flatMap (fun i => users.map (fun u => (u, td - (i : Int))))) s := by
              rw [List.flatMap_cons, runG_append]

theorem batch_daily_phase_runG (tasks : List Task) (users : List Nat) (td : Int)
    (days : Nat) (s : DailyStore) :
    batch_daily_phase tasks users td days s
      = runG (Gd tasks) (dailyKeys users td days) s :=
  daily_fold_eq_runG tasks users td (List.range days) s

theorem calculate_weekly_stats_eq_runG (users : List Nat) (end_date : Date)
    (ds : DailyStore) (ws : WeeklyStore) :
    calculate_weekly_stats users end_date ds ws
      = runG (Gw ds (toOrdinal end_date - weekday end_date)
              (toOrdinal end_date - weekday end_date + 6))
          (users.map (fun u => (u, end_date.year, (isocalendar end_date).2.1))) ws := by
  induction users generalizing ws with
  | nil => rfl
  | cons u us ih =>
      exact ih (stepG (Gw ds (toOrdinal end_date - weekday end_date)
        (toOrdinal end_date - weekday end_date + 6)) ws
        (u, end_date.year, (isocalendar end_date).2.1))

theorem handle_daily (tasks : List Task) (users : List Nat) (target_date : Date)
    (days : Nat) (calcWeekly : Bool) (st : BatchState) :
    (handle tasks users target_date days calcWeekly st).daily
      = batch_daily_phase tasks users (toOrdinal target_date) days st.daily := by
  cases calcWeekly <;> simp [handle]

/-! ## Claim theorems -/

/-- Claim C2: running the batch aggregator (`Command.handle` of
`calculate_analytics`) twice in succession with identical arguments over an
unchanged task store produces identical `DailyStats` and `WeeklyStats` row
contents: the second run changes no field of any row produced by the first. -/
theorem batch_aggregator_idempotent (tasks : List Task) (users : List Nat)
    (target_date : Date) (days : Nat) (calcWeekly : Bool) (st : BatchState) :
    handle tasks users target_date days calcWeekly
        (handle tasks users target_date days calcWeekly st)
      = handle tasks users target_date days calcWeekly st := by
  have hd : ∀ s : DailyStore,
      batch_daily_phase tasks users (toOrdinal target_date) days
          (batch_daily_phase tasks users (toOrdinal target_date) days s)
        = batch_daily_phase tasks users (toOrdinal target_date) days s := by
    intro s
    simp only [batch_daily_phase_runG]
    exact runG_idem (gfix_Gd tasks) _ _
  have hw : ∀ (ds : DailyStore) (ws : WeeklyStore),
      calculate_weekly_stats users target_date ds
          (calculate_weekly_stats users target_date ds ws)
        = calculate_weekly_stats users target_date ds ws := by
    intro ds ws
    simp only [calculate_weekly_stats_eq_runG]
    exact runG_idem (gfix_Gw ds _ _) _ _
  cases calcWeekly <;> simp [handle, hd, hw]

/-- Claim C1: for every user in the run and every date covered by the
date range of the run, the persisted `DailyStats` row holds `tasks_created` equal to the
number of tasks of that user created on that date. -/
theorem daily_tasks_created_correct (tasks : List Task) (users : List Nat)
    (target_date : Date) (days : Nat) (calcWeekly : Bool) (st : BatchState)
    (u : Nat) (D : Int) (hu : u ∈ users)
    (h1 : toOrdinal target_date - days < D) (h2 : D ≤ toOrdinal target_date) :
    ∃ row,
      lookupA (handle tasks users target_date days calcWeekly st).daily (u, D) = some row
        ∧ row.tasks_created
            = (tasks.filter (fun t => t.user = u ∧ t.created_at = D)).length := by
  rw [handle_daily, batch_daily_phase_runG]
  have hkey : (u, D) ∈ dailyKeys users (toOrdinal target_date) days := by
    unfold dailyKeys
    rw [List.mem_flatMap]
    refine ⟨(toOrdinal target_date - D).toNat, ?_, ?_⟩
    · rw [List.mem_range]
      omega
    · rw [List.mem_map]
      refine ⟨u, hu, ?_⟩
      have : ((toOrdinal target_date - D).toNat : Int) = toOrdinal target_date - D := by
        omega
      rw [this]
      simp
  have hst := runG_stableAt (gfix_Gd tasks) hkey st.daily
  unfold StableAt at hst
  refine ⟨Gd tasks (u, D) (lookupA (runG (Gd tasks)
    (dailyKeys users (toOrdinal target_date) days) st.daily) (u, D)), hst, ?_⟩
  show (computeDailyRow tasks u D).tasks_created = _
  simp only [computeDailyRow, createdOn, userTasks, List.filter_filter]
  congr 1
  apply List.filter_congr
  intro t _
  simp [Bool.and_comm]

/-- Witness for C1 at a concrete input: one task created on day 5, a one-day
run targeted at day 5 (the ordinal of 0001-01-05). -/
theorem daily_tasks_created_correct_witness :
    (0 ∈ ([0] : List Nat))
      ∧ toOrdinal ⟨1, 1, 5⟩ - (1 : Nat) < 5
      ∧ (5 : Int) ≤ toOrdinal ⟨1, 1, 5⟩
      ∧ ∃ row,
          lookupA (handle [sampleTask] [0] ⟨1, 1, 5⟩ 1 false ⟨[], []⟩).daily (0, 5)
              = some row
            ∧ row.tasks_created
                = ([sampleTask].filter (fun t => t.user = 0 ∧ t.created_at = 5)).length :=
  ⟨by decide, by decide, by decide,
    daily_tasks_created_correct [sampleTask] [0] ⟨1, 1, 5⟩ 1 false ⟨[], []⟩ 0 5
      (by decide) (by decide) (by decide)⟩

/-- The final `productivity_score` refresh of the incremental updater keeps
the invariant, given it holds before the refresh. -/
theorem signal_score_refresh_inv (r2 : DailyRow) (h : DailyInv r2) :
    DailyInv
      (if r2.tasks_created > 0 then
        { r2 with
            productivity_score :=
              min (((r2.tasks_completed : Rat) / (r2.tasks_created : Rat)) * 100) 100 }
      else r2) := by
  by_cases hn : r2.tasks_created > 0
  · rw [if_pos hn]
    exact ⟨le_min (by positivity) (by norm_num), min_le_right _ _,
      fun h0 => absurd (show r2.tasks_created = 0 from h0) (by omega)⟩
  · rwa [if_neg hn]

/-- Claim C8: every `DailyStats` row written by the batch aggregator
satisfies the `productivity_score` invariant, and the incremental updater
preserves it: if the previous row (when one exists) satisfies it, so does the
written row. -/
theorem productivity_score_invariant (tasks : List Task) (u : Nat) (d : Int)
    (inst : Task) (created : Bool) (today : Int) (prev : Option DailyRow) :
    DailyInv (computeDailyRow tasks u d)
      ∧ ((∀ r, prev = some r → DailyInv r) →
          DailyInv (signalDailyRow tasks inst created today prev)) := by
  constructor
  · unfold DailyInv computeDailyRow
    by_cases h : (createdOn (userTasks tasks u) d).length > 0
    · simp only [if_pos h]
      exact ⟨le_min (by positivity) (by norm_num), min_le_right _ _,
        fun h0 => absurd h0 (by omega)⟩
    · simp only [if_neg h]
      norm_num
  · intro hprev
    have h0 : DailyInv (prev.getD zeroDailyRow) := by
      cases prev with
      | none =>
          refine ⟨by norm_num [zeroDailyRow], by norm_num [zeroDailyRow], fun _ => rfl⟩
      | some r => exact hprev r rfl
    unfold signalDailyRow
    apply signal_score_refresh_inv
    obtain ⟨ha, hb, hc⟩ := h0
    split_ifs <;>
      first
        | exact ⟨ha, hb, hc⟩
        | exact ⟨ha, hb, fun h0 =>
            absurd (show (prev.getD zeroDailyRow).tasks_created + 1 = 0 from h0)
              (Nat.succ_ne_zero _)⟩

/-- Witness for C8: the batch row for an empty task store and the incremental
row written on a fresh day (no previous row). -/
theorem productivity_score_invariant_witness :
    DailyInv (computeDailyRow [] 0 0)
      ∧ DailyInv (signalDailyRow [] sampleTask false 0 none) :=
  ⟨(productivity_score_invariant [] 0 0 sampleTask false 0 none).1,
   (productivity_score_invariant [] 0 0 sampleTask false 0 none).2
     (fun _ h => nomatch h)⟩

/-- The row-level incremental update never touches `tasks_overdue` or
`hours_worked`. -/
theorem signalDailyRow_frame (tasks : List Task) (inst : Task) (created : Bool)
    (today : Int) (p : DailyRow) :
    (signalDailyRow tasks inst created today (some p)).tasks_overdue = p.tasks_overdue
      ∧ (signalDailyRow tasks inst created today (some p)).hours_worked = p.hours_worked := by
  unfold signalDailyRow
  constructor <;>
    (simp only [Option.getD_some]; split_ifs <;> rfl)

/-- Claim C10: when a `(user, today)` row already exists, running both
post-save receivers leaves its `tasks_overdue` and `hours_worked` fields at
their previous values. -/
theorem incremental_update_frame (tasks : List Task) (inst : Task) (created : Bool)
    (today : Int) (s : DailyStore) (prevRow : DailyRow)
    (h : lookupA s (inst.user, today) = some prevRow) :
    ∃ r,
      lookupA (incremental_update tasks inst created today s) (inst.user, today) = some r
        ∧ r.tasks_overdue = prevRow.tasks_overdue
        ∧ r.hours_worked = prevRow.hours_worked := by
  obtain ⟨ho, hh⟩ := signalDailyRow_frame tasks inst created today prevRow
  unfold incremental_update update_analytics_on_task_change
  rw [h]
  have h1 : lookupA
      (setA s (inst.user, today) (signalDailyRow tasks inst created today (some prevRow)))
      (inst.user, today)
        = some (signalDailyRow tasks inst created today (some prevRow)) :=
    lookupA_setA_self _ _ _
  unfold update_category_analytics
  cases hc : inst.category with
  | none => exact ⟨_, h1, ho, hh⟩
  | some c =>
      rw [h1]
      exact ⟨_, lookupA_setA_self _ _ _, ho, hh⟩

/-- Witness for C10: a stored row with 3 overdue tasks and 2 hours worked
survives an incremental update untouched in those two fields. -/
theorem incremental_update_frame_witness :
    ∃ r,
      lookupA (incremental_update [sampleTask] sampleTask true 7
          [((0, 7), overdueRow)]) (sampleTask.user, 7) = some r
        ∧ r.tasks_overdue = overdueRow.tasks_overdue
        ∧ r.hours_worked = overdueRow.hours_worked :=
  incremental_update_frame [sampleTask] sampleTask true 7 [((0, 7), overdueRow)]
    overdueRow rfl

/-- Claim C9: the retention pruner deletes only when invoked with
`confirm` and without `dry_run`; a dry run reports the would-be deletion
counts and mutates nothing; with neither flag it warns and is a no-op; and
the confirmed run deletes exactly the rows strictly older than the cutoffs. -/
theorem cleanup_two_key_safety (today : Int) (dk wk : Nat) (dry confirm : Bool)
    (ds : DailyStore) (ws : WeeklyStore) :
    (dry = true →
      (cleanup_handle today dk wk dry confirm ds ws).daily = ds
        ∧ (cleanup_handle today dk wk dry confirm ds ws).weekly = ws
        ∧ (cleanup_handle today dk wk dry confirm ds ws).deleted = (0, 0)
        ∧ (cleanup_handle today dk wk dry confirm ds ws).dry_run_report
            = some ((ds.filter (fun kv => kv.1.2 < today - (dk : Int))).length,
                (ws.filter (fun kv => kv.2.start_date < weekly_cutoff_date today wk)).length))
      ∧ (dry = false → confirm = false →
          cleanup_handle today dk wk dry confirm ds ws
            = { warned := true, dry_run_report := none, deleted := (0, 0),
                daily := ds, weekly := ws })
      ∧ (dry = false → confirm = true →
          (cleanup_handle today dk wk dry confirm ds ws).warned = false
            ∧ (∀ kv, kv ∈ (cleanup_handle today dk wk dry confirm ds ws).daily ↔
                kv ∈ ds ∧ ¬(kv.1.2 < today - (dk : Int)))
            ∧ (∀ kv, kv ∈ (cleanup_handle today dk wk dry confirm ds ws).weekly ↔
                kv ∈ ws ∧ ¬(kv.2.start_date < weekly_cutoff_date today wk))) := by
  refine ⟨fun hd => ?_, fun hd hc => ?_, fun hd hc => ?_⟩
  · subst hd
    cases confirm <;> simp [cleanup_handle]
  · subst hd; subst hc
    simp [cleanup_handle]
  · subst hd; subst hc
    refine ⟨by simp [cleanup_handle], fun kv => ?_, fun kv => ?_⟩ <;>
      simp [cleanup_handle, List.mem_filter]

/-- Witness for C9 at a concrete input: a dry run over a one-row daily store
reports one stale candidate and deletes nothing. -/
theorem cleanup_two_key_safety_witness :
    (cleanup_handle 10 2 1 true false [((0, 3), zeroDailyRow)] []).daily
        = [((0, 3), zeroDailyRow)]
      ∧ (cleanup_handle 10 2 1 true false [((0, 3), zeroDailyRow)] []).weekly = []
      ∧ (cleanup_handle 10 2 1 true false [((0, 3), zeroDailyRow)] []).deleted = (0, 0)
      ∧ (cleanup_handle 10 2 1 true false [((0, 3), zeroDailyRow)] []).dry_run_report
          = some (([((0, 3), zeroDailyRow)].filter
                (fun kv => kv.1.2 < (10 : Int) - ((2 : Nat) : Int))).length,
              (([] : WeeklyStore).filter
                (fun kv => kv.2.start_date < weekly_cutoff_date 10 1)).length) :=
  (cleanup_two_key_safety 10 2 1 true false [((0, 3), zeroDailyRow)] []).1 rfl

/-- Counterexample to C7: the only task of user 0 was completed earlier on day 10
and has just been reopened (status pending, `completed_at` cleared).  The
recount would give 0, but the incremental updater leaves the stale value 1 in
`tasks_completed`, because the recount runs only when the saved task is
currently completed today. -/
theorem incremental_completed_not_recounted :
    (signalDailyRow [reopenedTask] reopenedTask false 10 (some staleRow)).tasks_completed
      ≠ countCompletedToday [reopenedTask] reopenedTask.user 10 := by decide

/-- Claim C7 as amended: the incremental updater recounts `tasks_completed`
only when the saved task has status completed and completion date today;
otherwise it leaves the counter at its previous value (stale after a task
moves away from completed, until the next batch run). -/
theorem incremental_completed_recount_conditional (tasks : List Task) (inst : Task)
    (created : Bool) (today : Int) (prev : Option DailyRow) :
    ((inst.status = Status.completed ∧ inst.completed_at = some today) →
      (signalDailyRow tasks inst created today prev).tasks_completed
        = countCompletedToday tasks inst.user today)
      ∧ (¬(inst.status = Status.completed ∧ inst.completed_at = some today) →
          (signalDailyRow tasks inst created today prev).tasks_completed
            = (prev.getD zeroDailyRow).tasks_completed) := by
  unfold signalDailyRow
  constructor
  · rintro ⟨h1, h2⟩
    have h3 : inst.completed_at ≠ none := by rw [h2]; exact Option.some_ne_none _
    simp only [if_pos (And.intro h1 h3), if_pos h2]
    split_ifs <;> rfl
  · intro h
    by_cases h1 : inst.status = Status.completed ∧ inst.completed_at ≠ none
    · have h2 : inst.completed_at ≠ some today := fun hc => h ⟨h1.1, hc⟩
      simp only [if_pos h1, if_neg h2]
      split_ifs <;> cases created <;> rfl
    · simp only [if_neg h1]
      split_ifs <;> cases created <;> rfl

/-- Witness for the amended C7, on the recounting branch: a task completed
today triggers the full recount. -/
theorem incremental_completed_recount_conditional_witness :
    (completedTask.status = Status.completed ∧ completedTask.completed_at = some 10)
      ∧ (signalDailyRow [completedTask] completedTask false 10 none).tasks_completed
          = countCompletedToday [completedTask] completedTask.user 10 :=
  ⟨by decide,
    (incremental_completed_recount_conditional [completedTask] completedTask false 10
      none).1 (by decide)⟩

/-- Counterexample to C5: a database error raised at the `DailyStats` save
inside `update_analytics_on_task_change` is not caught by anything in the
handler and reaches the caller — the task mutation that triggered the signal. -/
theorem incremental_exception_propagates :
    update_analytics_exc true [] sampleTask true 0 []
      = Except.error "DailyStats.save raised" := rfl

/-- Claim C5 as amended: `update_analytics_on_task_change` has no exception
handler, so an error in its stats persistence propagates to the triggering
task save; when nothing raises it completes normally; the only swallowed
exception in the incremental path is `DailyStats.DoesNotExist` inside
`update_category_analytics`. -/
theorem incremental_exception_behaviour (failSave : Bool) (tasks : List Task)
    (inst : Task) (created : Bool) (today : Int) (s : DailyStore) :
    (failSave = true →
      update_analytics_exc failSave tasks inst created today s
        = Except.error "DailyStats.save raised")
      ∧ (failSave = false →
          update_analytics_exc failSave tasks inst created today s
            = Except.ok (update_analytics_on_task_change tasks inst created today s))
      ∧ (lookupA s (inst.user, today) = none →
          update_category_exc failSave tasks inst created today s = Except.ok s) := by
  refine ⟨fun h => ?_, fun h => ?_, fun h => ?_⟩
  · subst h
    rfl
  · subst h
    rfl
  · unfold update_category_exc
    cases inst.category with
    | none => rfl
    | some c => rw [h]

/-- Witness for the amended C5: with a failing save the handler errors out;
with a missing daily row the category handler swallows the lookup failure. -/
theorem incremental_exception_behaviour_witness :
    ((true : Bool) = true →
      update_analytics_exc true [] sampleTask false 3 []
        = Except.error "DailyStats.save raised")
      ∧ (lookupA ([] : DailyStore) (sampleTask.user, 3) = none →
          update_category_exc true [] sampleTask false 3 [] = Except.ok []) :=
  ⟨(incremental_exception_behaviour true [] sampleTask false 3 []).1,
   (incremental_exception_behaviour true [] sampleTask false 3 []).2.2⟩

/-- Counterexample to C6: with users `[0, 1]` and the recomputation for
user 0 raising, the batch loop errors out immediately: the store still has no row
for user 1, so the batch was aborted for the remaining users rather than
continuing. -/
theorem batch_user_failure_aborts :
    calculate_daily_stats_exc (fun u => u == 0) [] [0, 1] 0 []
        = Except.error ("recount raised", [])
      ∧ lookupA ([] : DailyStore) (1, 0) = none :=
  ⟨rfl, rfl⟩

/-- Claim C6 as amended: there is no exception handling in the batch loop,
so the first user whose recomputation raises aborts the run; the store keeps
only the rows of the users processed before the failure, and the users after
it are never processed. -/
theorem batch_user_failure_propagates (failFor : Nat → Bool) (tasks : List Task)
    (calc_date : Int) (s : DailyStore) (us1 us2 : List Nat) (u : Nat)
    (h1 : ∀ v ∈ us1, failFor v = false) (h2 : failFor u = true) :
    calculate_daily_stats_exc failFor tasks (us1 ++ u :: us2) calc_date s
      = Except.error ("recount raised",
          us1.foldl (fun s v => setA s (v, calc_date) (computeDailyRow tasks v calc_date)) s) := by
  induction us1 generalizing s with
  | nil => simp [calculate_daily_stats_exc, h2]
  | cons a l ih =>
      have ha : failFor a = false := h1 a (List.mem_cons_self a l)
      simp only [List.cons_append, calculate_daily_stats_exc, ha, Bool.false_eq_true,
        if_false, List.foldl_cons]
      exact ih _ (fun v hv => h1 v (List.mem_cons_of_mem a hv))

/-- Witness for the amended C6 at a concrete input. -/
theorem batch_user_failure_propagates_witness :
    calculate_daily_stats_exc (fun u => u == 0) [] ([] ++ 0 :: [1]) 5 []
      = Except.error ("recount raised",
          ([] : List Nat).foldl
            (fun s v => setA s (v, (5 : Int)) (computeDailyRow [] v 5)) []) :=
  batch_user_failure_propagates (fun u => u == 0) [] 5 [] [] [1] 0
    (fun v hv => nomatch hv) (by decide)

/-- Claim C3 (code evaluation at the failing input): with `keep_weeks = 52`
the weekly cutoff of the code is 2548 days before today, not the 364 days the
spec states — `timedelta(weeks=weeks_to_keep * 7)` multiplies by 7 twice —
so a confirmed cleanup keeps a year-old weekly row that the specified cutoff
would delete. -/
theorem weekly_cutoff_multiplies_weeks_twice :
    weekly_cutoff_date 739251 52 = 739251 - 2548
      ∧ weekly_cutoff_date 739251 52 ≠ 739251 - 364
      ∧ (cleanup_handle 739251 90 52 false true [] [((0, 2024, 30), oldWeeklyRow)]).weekly
          = [((0, 2024, 30), oldWeeklyRow)] :=
  ⟨rfl, by decide, rfl⟩

/-- Claim C4 (code evaluation at the failing input): for target date
2024-12-30 the weekly row is stored under `(user, 2024, 1)` — calendar year
with ISO week number — while `isocalendar` gives ISO year 2025, week 1; the
key written by the code therefore collides with the key of the week of 2024-01-01. -/
theorem weekly_key_uses_calendar_year :
    (lookupA (calculate_weekly_stats [0] ⟨2024, 12, 30⟩ [] []) (0, 2024, 1)).isSome = true
      ∧ lookupA (calculate_weekly_stats [0] ⟨2024, 12, 30⟩ [] []) (0, 2025, 1) = none
      ∧ (isocalendar ⟨2024, 12, 30⟩).1 = 2025
      ∧ (isocalendar ⟨2024, 12, 30⟩).2.1 = 1
      ∧ ((⟨2024, 12, 30⟩ : Date).year, (isocalendar ⟨2024, 12, 30⟩).2.1)
          = ((⟨2024, 1, 1⟩ : Date).year, (isocalendar ⟨2024, 1, 1⟩).2.1) :=
  ⟨rfl, rfl, by decide, by decide, by decide⟩

end Acta
